import Mathlib

/-!
Verification development for the test-generation engine
(`ai_test_platform/modules/test_generation.py`).

Strings are modelled as `List Char` (`Str`), so that every definition is a
plain structural recursion the kernel can evaluate.  Python's `json` decoder,
`ast.literal_eval` (the subset the module can reach), the regular-expression
rewrites used by `clean_and_parse_json`, the schema normalizer
`normalize_json_structure`, the context-preparation phase and the streaming
batch orchestrator `generate_test_cases_stream` are embedded below, each from
the source.  External capabilities (AI client streams, compression, retrieval,
the database) are supplied as explicit oracle parameters.
-/

/-- Python strings, modelled as lists of characters. -/
abbrev Str := List Char

/-- Coerce a Lean string literal to the `Str` model. -/
def S (s : String) : Str := s.data

/-- The whitespace characters recognised by Python's `str.strip()` (ASCII part;
the module never feeds it non-ASCII whitespace). -/
def isPyWs (c : Char) : Bool :=
  c = ' ' || c = '\t' || c = '\n' || c = '\r' || c = '\x0b' || c = '\x0c'

/-- The whitespace accepted between JSON tokens by Python's `json` decoder. -/
def isJsonWs (c : Char) : Bool :=
  c = ' ' || c = '\t' || c = '\n' || c = '\r'

/-- Drop leading JSON whitespace. -/
def skipWs : Str → Str
  | [] => []
  | c :: r => if isJsonWs c then skipWs r else c :: r

/-- `a` is a leading substring of `s` (Python `str.startswith`). -/
def startsWithS : Str → Str → Bool
  | [], _ => true
  | _ :: _, [] => false
  | a :: as, b :: bs => a = b && startsWithS as bs

/-- Python `str.strip()`: remove whitespace from both ends. -/
def stripS (s : Str) : Str :=
  ((s.dropWhile isPyWs).reverse.dropWhile isPyWs).reverse

/-- Position of the first occurrence of character `c` (Python `str.find` for a
one-character needle). -/
def findChar (c : Char) : Str → Option Nat
  | [] => none
  | x :: r => if x = c then some 0 else (findChar c r).map (· + 1)

/-- Position of the last occurrence of character `c` (Python `str.rfind` for a
one-character needle). -/
def rfindChar (c : Char) (s : Str) : Option Nat :=
  (findChar c s.reverse).map (fun i => s.length - 1 - i)

/-- Position of the first occurrence of substring `pat` (Python `str.find`). -/
def findSub (pat : Str) : Str → Option Nat
  | [] => if pat = [] then some 0 else none
  | x :: r => if startsWithS pat (x :: r) then some 0 else (findSub pat r).map (· + 1)

/-- Python `str.replace(pat, "")`: remove every occurrence of `pat`
(left to right, non-overlapping).  Fuelled by the input length. -/
def removeAll (pat : Str) : Nat → Str → Str
  | 0, s => s
  | _ + 1, [] => []
  | f + 1, x :: r =>
    if pat ≠ [] && startsWithS pat (x :: r) then
      removeAll pat f ((x :: r).drop pat.length)
    else
      x :: removeAll pat f r

/-- Decimal digits of a natural number (fuelled division loop). -/
def natToStrAux : Nat → Nat → Str → Str
  | 0, _, acc => acc
  | f + 1, n, acc =>
    let d := Char.ofNat (48 + n % 10)
    if n < 10 then d :: acc else natToStrAux f (n / 10) (d :: acc)

/-- Python `str(n)` for a natural number. -/
def natToStr (n : Nat) : Str := natToStrAux (n + 1) n []

/-- Parse a non-empty all-digit string as a natural number (Python `int(s)`
on a string that matched `\d+`). -/
def strToNat (s : Str) : Nat :=
  s.foldl (fun acc c => acc * 10 + (c.toNat - 48)) 0

/-- `f"{n:03d}"`: decimal digits left-padded with zeros to width three. -/
def pad3 (n : Nat) : Str :=
  let d := natToStr n
  List.replicate (3 - d.length) '0' ++ d

/-- ASCII upper-casing; non-ASCII characters (e.g. CJK) are unchanged, as under
Python `str.upper()` for the alphabets this module handles. -/
def upperS (s : Str) : Str :=
  s.map fun c => if 'a' ≤ c && c ≤ 'z' then Char.ofNat (c.toNat - 32) else c

/-- ASCII lower-casing (Python `str.lower()` on the keyword lists used here). -/
def lowerS (s : Str) : Str :=
  s.map fun c => if 'A' ≤ c && c ≤ 'Z' then Char.ofNat (c.toNat + 32) else c

/-- Python `pat in s` for strings: substring containment. -/
def containsSub (pat : Str) (s : Str) : Bool :=
  (findSub pat s).isSome

/-- Python `c.isdigit()` restricted to ASCII digits (the regexes `\d+` and
`TC-\d{3,}` are only ever exercised on ASCII output here). -/
def isDigitC (c : Char) : Bool := '0' ≤ c && c ≤ '9'

/-- JSON / Python-literal values.  Numbers keep their source lexeme, which is
exactly what `str()` and the `\d+` re-formatting path observe for the integer
ids this module handles (`NaN`/`Infinity` and float re-printing are outside
the behaviour exercised by any claim and are not modelled). -/
inductive JValue where
  | null : JValue
  | bool : Bool → JValue
  | num : Str → JValue
  | str : Str → JValue
  | arr : List JValue → JValue
  | obj : List (Str × JValue) → JValue

/-- Python `dict` insertion: a repeated key overwrites in place, a fresh key
is appended. -/
def objInsert (m : List (Str × JValue)) (k : Str) (v : JValue) : List (Str × JValue) :=
  match m with
  | [] => [(k, v)]
  | (k', v') :: r => if k' = k then (k, v) :: r else (k', v') :: objInsert r k v

/-- Python `dict` lookup (`k in d` / `d.get(k)` with no default). -/
def objGet (m : List (Str × JValue)) (k : Str) : Option JValue :=
  match m with
  | [] => none
  | (k', v) :: r => if k' = k then some v else objGet r k

/-- Decode one JSON string body after the opening quote; returns the content
and the remainder after the closing quote.  Escapes as in Python's strict
`json` scanner; raw control characters are rejected. -/
def jsonStr : Str → Option (Str × Str)
  | [] => none
  | '"' :: r => some ([], r)
  | '\\' :: e :: r =>
    (match e with
     | '"' => (jsonStr r).map (fun p => ('"' :: p.1, p.2))
     | '\\' => (jsonStr r).map (fun p => ('\\' :: p.1, p.2))
     | '/' => (jsonStr r).map (fun p => ('/' :: p.1, p.2))
     | 'b' => (jsonStr r).map (fun p => ('\x08' :: p.1, p.2))
     | 'f' => (jsonStr r).map (fun p => ('\x0c' :: p.1, p.2))
     | 'n' => (jsonStr r).map (fun p => ('\n' :: p.1, p.2))
     | 'r' => (jsonStr r).map (fun p => ('\r' :: p.1, p.2))
     | 't' => (jsonStr r).map (fun p => ('\t' :: p.1, p.2))
     | 'u' =>
       (match r with
        | a :: b :: c :: d :: r' =>
          if [a, b, c, d].all (fun x => isDigitC x || ('a' ≤ x && x ≤ 'f') || ('A' ≤ x && x ≤ 'F')) then
            let hv := fun (x : Char) =>
              if isDigitC x then x.toNat - 48
              else if 'a' ≤ x && x ≤ 'f' then x.toNat - 87 else x.toNat - 55
            (jsonStr r').map (fun p =>
              (Char.ofNat (((hv a * 16 + hv b) * 16 + hv c) * 16 + hv d) :: p.1, p.2))
          else none
        | _ => none)
     | _ => none)
  | c :: r =>
    if c.toNat < 32 then none
    else (jsonStr r).map (fun p => (c :: p.1, p.2))

/-- Lex a JSON number at the head of the input
(`-?(0|[1-9][0-9]*)(\.[0-9]+)?([eE][+-]?[0-9]+)?`), keeping its lexeme. -/
def jsonNum (s : Str) : Option (JValue × Str) :=
  let (sgn, s1) := match s with
    | '-' :: r => ([('-' : Char)], r)
    | _ => ([], s)
  match s1 with
  | [] => none
  | c :: _ =>
    if ¬ isDigitC c then none
    else
      let intPart := s1.takeWhile isDigitC
      let afterInt := s1.drop intPart.length
      if intPart.length > 1 && intPart.headD '0' = '0' then none
      else
        let (fracPart, afterFrac) := match afterInt with
          | '.' :: r =>
            let ds := r.takeWhile isDigitC
            if ds = [] then ([], afterInt) else ('.' :: ds, r.drop ds.length)
          | _ => ([], afterInt)
        if afterInt ≠ [] && afterInt.headD ' ' = '.' && fracPart = [] then none
        else
          let (expPart, rest) := match afterFrac with
            | e :: r =>
              if e = 'e' || e = 'E' then
                let (es, r') := match r with
                  | '+' :: r2 => ([('+' : Char)], r2)
                  | '-' :: r2 => ([('-' : Char)], r2)
                  | _ => ([], r)
                let ds := r'.takeWhile isDigitC
                if ds = [] then ([], afterFrac) else (e :: es ++ ds, r'.drop ds.length)
              else ([], afterFrac)
            | _ => ([], afterFrac)
          some (JValue.num (sgn ++ intPart ++ fracPart ++ expPart), rest)

/-- Parser modes: a value, the element loop of an array, or the field loop of
an object (the latter two carry the reversed accumulator). -/
inductive PSt where
  | pval : Str → PSt
  | parr : List JValue → Str → PSt
  | pobj : List (Str × JValue) → Str → PSt

/-- The core of Python's `json.JSONDecoder.raw_decode`: decode one JSON value
at the head of the input (no leading whitespace is skipped, matching
`raw_decode`), returning the value and the unconsumed remainder.  Structural
recursion on fuel, so the kernel can run it. -/
def pj : Nat → PSt → Option (JValue × Str)
  | 0, _ => none
  | f + 1, PSt.pval s =>
    match s with
    | '[' :: r =>
      (match skipWs r with
       | ']' :: r2 => some (JValue.arr [], r2)
       | r2 => pj f (PSt.parr [] r2))
    | '{' :: r =>
      (match skipWs r with
       | '}' :: r2 => some (JValue.obj [], r2)
       | r2 => pj f (PSt.pobj [] r2))
    | '"' :: r => (jsonStr r).map (fun p => (JValue.str p.1, p.2))
    | 't' :: 'r' :: 'u' :: 'e' :: r => some (JValue.bool true, r)
    | 'f' :: 'a' :: 'l' :: 's' :: 'e' :: r => some (JValue.bool false, r)
    | 'n' :: 'u' :: 'l' :: 'l' :: r => some (JValue.null, r)
    | _ => jsonNum s
  | f + 1, PSt.parr acc s =>
    match pj f (PSt.pval s) with
    | none => none
    | some (v, rest) =>
      match skipWs rest with
      | ']' :: r2 => some (JValue.arr (acc ++ [v]), r2)
      | ',' :: r2 => pj f (PSt.parr (acc ++ [v]) (skipWs r2))
      | _ => none
  | f + 1, PSt.pobj acc s =>
    match s with
    | '"' :: r =>
      (match jsonStr r with
       | none => none
       | some (k, rest) =>
         match skipWs rest with
         | ':' :: r2 =>
           (match pj f (PSt.pval (skipWs r2)) with
            | none => none
            | some (v, rest2) =>
              match skipWs rest2 with
              | '}' :: r3 =>
                some (JValue.obj ((acc ++ [(k, v)]).foldl (fun m p => objInsert m p.1 p.2) []), r3)
              | ',' :: r3 => pj f (PSt.pobj (acc ++ [(k, v)]) (skipWs r3))
              | _ => none)
         | _ => none)
    | _ => none

/-- Fuel that dominates any parse of `s` (each two steps of `pj` consume at
least one input character). -/
def pjFuel (s : Str) : Nat := 2 * s.length + 8

/-- `decoder.raw_decode(s)`: value plus unconsumed suffix. -/
def rawDecode (s : Str) : Option (JValue × Str) := pj (pjFuel s) (PSt.pval s)

/-- Decode a Python string-literal body (after its opening quote `q`), with
Python's escape behaviour: known escapes are translated, unknown escapes keep
the backslash, a raw newline is a syntax error.  Covers the single- and
double-quoted one-line strings reachable through the `ast.literal_eval`
fallback. -/
def pyStrLit (q : Char) : Str → Option (Str × Str)
  | [] => none
  | '\\' :: e :: r =>
    let cont := fun (c : Str) => (pyStrLit q r).map (fun p => (c ++ p.1, p.2))
    (match e with
     | 'n' => cont [('\n' : Char)]
     | 't' => cont [('\t' : Char)]
     | 'r' => cont [('\r' : Char)]
     | 'b' => cont [('\x08' : Char)]
     | 'f' => cont [('\x0c' : Char)]
     | 'v' => cont [('\x0b' : Char)]
     | '0' => cont [('\x00' : Char)]
     | '\\' => cont [('\\' : Char)]
     | '\'' => cont [('\'' : Char)]
     | '"' => cont [('"' : Char)]
     | _ => cont ['\\', e])
  | c :: r =>
    if c = q then some ([], r)
    else if c = '\n' then none
    else (pyStrLit q r).map (fun p => (c :: p.1, p.2))

/-- Lex a Python number literal (optional sign, digits, optional fraction and
exponent), keeping its lexeme. -/
def pyNum (s : Str) : Option (JValue × Str) :=
  let (sgn, s1) := match s with
    | '-' :: r => ([('-' : Char)], r)
    | '+' :: r => ([('+' : Char)], r)
    | _ => ([], s)
  match s1 with
  | [] => none
  | c :: _ =>
    if ¬ isDigitC c then none
    else
      let intPart := s1.takeWhile isDigitC
      let afterInt := s1.drop intPart.length
      let (fracPart, afterFrac) := match afterInt with
        | '.' :: r =>
          let ds := r.takeWhile isDigitC
          ('.' :: ds, r.drop ds.length)
        | _ => ([], afterInt)
      let (expPart, rest) := match afterFrac with
        | e :: r =>
          if e = 'e' || e = 'E' then
            let (es, r') := match r with
              | '+' :: r2 => ([('+' : Char)], r2)
              | '-' :: r2 => ([('-' : Char)], r2)
              | _ => ([], r)
            let ds := r'.takeWhile isDigitC
            if ds = [] then ([], afterFrac) else (e :: es ++ ds, r'.drop ds.length)
          else ([], afterFrac)
        | _ => ([], afterFrac)
      some (JValue.num (sgn ++ intPart ++ fracPart ++ expPart), rest)

/-- The subset of Python's `ast.literal_eval` grammar this module can reach:
lists, dicts with string keys, strings, numbers, `True`/`False`/`None`.
Decodes one literal at the head of the input. -/
def pyl : Nat → PSt → Option (JValue × Str)
  | 0, _ => none
  | f + 1, PSt.pval s =>
    match s with
    | '[' :: r =>
      (match (r.dropWhile isPyWs) with
       | ']' :: r2 => some (JValue.arr [], r2)
       | r2 => pyl f (PSt.parr [] r2))
    | '{' :: r =>
      (match (r.dropWhile isPyWs) with
       | '}' :: r2 => some (JValue.obj [], r2)
       | r2 => pyl f (PSt.pobj [] r2))
    | '\'' :: r => (pyStrLit '\'' r).map (fun p => (JValue.str p.1, p.2))
    | '"' :: r => (pyStrLit '"' r).map (fun p => (JValue.str p.1, p.2))
    | 'T' :: 'r' :: 'u' :: 'e' :: r => some (JValue.bool true, r)
    | 'F' :: 'a' :: 'l' :: 's' :: 'e' :: r => some (JValue.bool false, r)
    | 'N' :: 'o' :: 'n' :: 'e' :: r => some (JValue.null, r)
    | _ => pyNum s
  | f + 1, PSt.parr acc s =>
    match pyl f (PSt.pval s) with
    | none => none
    | some (v, rest) =>
      match rest.dropWhile isPyWs with
      | ']' :: r2 => some (JValue.arr (acc ++ [v]), r2)
      | ',' :: r2 =>
        (match r2.dropWhile isPyWs with
         | ']' :: r3 => some (JValue.arr (acc ++ [v]), r3)
         | r3 => pyl f (PSt.parr (acc ++ [v]) r3))
      | _ => none
  | f + 1, PSt.pobj acc s =>
    match pyl f (PSt.pval s) with
    | none => none
    | some (JValue.str k, rest) =>
      (match rest.dropWhile isPyWs with
       | ':' :: r2 =>
         (match pyl f (PSt.pval (r2.dropWhile isPyWs)) with
          | none => none
          | some (v, rest2) =>
            match rest2.dropWhile isPyWs with
            | '}' :: r3 =>
              some (JValue.obj ((acc ++ [(k, v)]).foldl (fun m p => objInsert m p.1 p.2) []), r3)
            | ',' :: r3 =>
              (match r3.dropWhile isPyWs with
               | '}' :: r4 =>
                 some (JValue.obj ((acc ++ [(k, v)]).foldl (fun m p => objInsert m p.1 p.2) []), r4)
               | r4 => pyl f (PSt.pobj (acc ++ [(k, v)]) r4))
            | _ => none)
       | _ => none)
    | some _ => none

/-- `ast.literal_eval(s)`: decode one literal, requiring the whole input to be
consumed up to trailing whitespace. -/
def pyLiteralEval (s : Str) : Option JValue :=
  let t := s.dropWhile isPyWs
  match pyl (pjFuel t) (PSt.pval t) with
  | some (v, rest) => if rest.dropWhile isPyWs = [] then some v else none
  | none => none

/-- `re.findall` for the fence pattern in `clean_and_parse_json`
(triple backtick, optional `json` tag, lazily matched body with surrounding
whitespace stripped by the pattern's own whitespace atoms). -/
def findFences : Nat → Str → List Str
  | 0, _ => []
  | f + 1, s =>
    match findSub (S "```") s with
    | none => []
    | some i =>
      let t := s.drop (i + 3)
      let t := if startsWithS (S "json") t then t.drop 4 else t
      let t2 := t.dropWhile isPyWs
      match findSub (S "```") t2 with
      | none => []
      | some j =>
        let content := ((t2.take j).reverse.dropWhile isPyWs).reverse
        content :: findFences f (t2.drop (j + 3))

/-- Python `"\n".join(blocks)`. -/
def joinNL : List Str → Str
  | [] => []
  | [b] => b
  | b :: r => b ++ '\n' :: joinNL r

/-- `re.sub(r",\s*([}\]])", r"\1", s)`: drop a comma that is followed (over
whitespace) by a closing bracket; the scan is blind to string context, exactly
as the regex is. -/
def commaSub : Nat → Str → Str
  | 0, s => s
  | _ + 1, [] => []
  | f + 1, c :: r =>
    if c = ',' then
      let w := r.takeWhile isPyWs
      match r.drop w.length with
      | b :: r2 =>
        if b = '}' || b = ']' then b :: commaSub f r2 else c :: commaSub f r
      | [] => c :: commaSub f r
    else c :: commaSub f r

/-- First `[` or `{` of the input: the root-kind flag (`true` for an array
root) and the suffix starting at that bracket.  This is the single-scan form
of the source's `find("[")` / `find("{")` index comparison. -/
def firstBracket : Str → Option (Bool × Str)
  | [] => none
  | c :: r =>
    if c = '[' then some (true, c :: r)
    else if c = '{' then some (false, c :: r)
    else firstBracket r

/-- The concatenated-arrays loop of `clean_and_parse_json` (source lines
73-91): repeatedly skip to the next `[`, decode a further array and extend
the result, stopping at the first failure. -/
def extendArrays : Nat → List JValue → Str → List JValue
  | 0, acc, _ => acc
  | f + 1, acc, rem =>
    if rem = [] then acc
    else
      let next : Option Str :=
        if startsWithS (S "[") rem then some rem
        else match findSub (S "[") rem with
          | some i => some (rem.drop i)
          | none => none
      match next with
      | none => acc
      | some r =>
        match rawDecode r with
        | some (JValue.arr l, rest) => extendArrays f (acc ++ l) (stripS rest)
        | some (_, rest) => extendArrays f acc (stripS rest)
        | none => acc

/-- The object-by-object salvage scan (source lines 106-117 and 126-137):
find the next `{`, decode one value there, and keep going after it; stop at
the first decode failure. -/
def objScan : Nat → Str → List JValue
  | 0, _ => []
  | f + 1, s =>
    match findSub (S "\x7b") s with
    | none => []
    | some i =>
      match rawDecode (s.drop i) with
      | some (v, rest) => v :: objScan f rest
      | none => []

/-- Array-root repair (source lines 93-141): truncate to the last `]`, strip
trailing commas again and retry; failing that, salvage individual objects. -/
def repairArray (c2 : Str) : Option JValue :=
  match rfindChar ']' c2 with
  | some i =>
    (match rawDecode (commaSub (c2.take (i + 1)).length (c2.take (i + 1))) with
     | some (v, _) => some v
     | none =>
       match objScan c2.length c2 with
       | [] => none
       | items => some (JValue.arr items))
  | none =>
    match objScan c2.length c2 with
    | [] => none
    | items => some (JValue.arr items)

/-- Object-root repair (source lines 142-149): truncate to the last `}`,
strip trailing commas and retry once. -/
def repairObj (c2 : Str) : Option JValue :=
  match rfindChar '}' c2 with
  | none => none
  | some i =>
    (match rawDecode (commaSub (c2.take (i + 1)).length (c2.take (i + 1))) with
     | some (v, _) => some v
     | none => none)

/-- The strict-decode stage with its repairs (source lines 66-149), applied to
the sliced, comma-cleaned text `c2`; `rootArr` is `root_is_array`. -/
def mainParse (c2 : Str) (rootArr : Bool) : Option JValue :=
  match rawDecode c2 with
  | some (v, rest) =>
    (match v with
     | JValue.arr l =>
       if rootArr then some (JValue.arr (extendArrays rest.length l (stripS rest)))
       else some v
     | _ => some v)
  | none => if rootArr then repairArray c2 else repairObj c2

/-- Markdown-fence extraction, BOM removal and stripping (source lines 44-53). -/
def cleanStage1 (raw : Str) : Str :=
  let blocks := findFences raw.length raw
  let c := if blocks ≠ [] then joinNL blocks
           else removeAll (S "```") raw.length (removeAll (S "```json") raw.length raw)
  stripS (removeAll (S "\uFEFF") c.length c)

/-- The `ast.literal_eval` fallback (source lines 150-160), applied to the
most recent value of `cleaned_response`. -/
def jsonFallbackEval (cleaned : Str) : Option JValue :=
  if startsWithS (S "[") (stripS cleaned) || startsWithS (S "\x7b") (stripS cleaned) then
    match pyLiteralEval cleaned with
    | some (JValue.arr l) => some (JValue.arr l)
    | some (JValue.obj m) => some (JValue.obj m)
    | _ => none
  else none

/-- The explicit failure marker returned when every strategy fails
(source line 162): it carries the original raw input. -/
def failMarker (raw : Str) : JValue :=
  JValue.obj [(S "error", JValue.str (S "Failed to parse JSON")),
              (S "raw_response", JValue.str raw)]

/-- The recovery pipeline of `clean_and_parse_json`: every strategy in source
order, `none` when all of them fail (the path that reaches source line 162).
The `ast.literal_eval` fallback sees the latest value of `cleaned_response`:
the merely-cleaned text when no bracket was found, the sliced and
comma-cleaned text otherwise. -/
def cpjCore (raw : Str) : Option JValue :=
  match firstBracket (cleanStage1 raw) with
  | none => jsonFallbackEval (cleanStage1 raw)
  | some (rootArr, sliced) =>
    (match mainParse (commaSub sliced.length sliced) rootArr with
     | some v => some v
     | none => jsonFallbackEval (commaSub sliced.length sliced))

/-- `clean_and_parse_json(response_text)` (source lines 29-164). -/
def clean_and_parse_json (raw : Str) : JValue :=
  (cpjCore raw).getD (failMarker raw)

/-- `", ".join`-style gluing used by Python `repr` of lists and dicts. -/
def joinCommaSp : List Str → Str
  | [] => []
  | [b] => b
  | b :: r => b ++ ',' :: ' ' :: joinCommaSp r

/-- Python `repr` of a value, fuelled by nesting depth; only reachable from
`normalize_json_structure` when `str()` is applied to a whole list or dict
(a path no canonical model output takes), so the common escapes suffice. -/
def pyReprAux : Nat → JValue → Str
  | 0, _ => []
  | _ + 1, JValue.null => S "None"
  | _ + 1, JValue.bool true => S "True"
  | _ + 1, JValue.bool false => S "False"
  | _ + 1, JValue.num s => s
  | _ + 1, JValue.str s =>
    '\'' :: (s.foldr (fun c acc =>
      if c = '\\' then '\\' :: '\\' :: acc
      else if c = '\'' then '\\' :: '\'' :: acc
      else if c = '\n' then '\\' :: 'n' :: acc
      else if c = '\r' then '\\' :: 'r' :: acc
      else if c = '\t' then '\\' :: 't' :: acc
      else c :: acc) []) ++ [('\'' : Char)]
  | f + 1, JValue.arr l =>
    '[' :: joinCommaSp (l.map (pyReprAux f)) ++ [(']' : Char)]
  | f + 1, JValue.obj m =>
    S "\x7b" ++ joinCommaSp (m.map (fun p => pyReprAux f (JValue.str p.1) ++ S ": " ++ pyReprAux f p.2)) ++ S "\x7d"

/-- Python `str()` of a value, as used in the normalizer's coercions. -/
def pyStr (v : JValue) : Str :=
  match v with
  | JValue.null => S "None"
  | JValue.bool true => S "True"
  | JValue.bool false => S "False"
  | JValue.num s => s
  | JValue.str s => s
  | JValue.arr l => pyReprAux 1000 (JValue.arr l)
  | JValue.obj m => pyReprAux 1000 (JValue.obj m)

/-- The number lexemes whose Python value is zero (falsy). -/
def numIsZero (s : Str) : Bool :=
  let t := match s with
    | '-' :: r => r
    | '+' :: r => r
    | _ => s
  (t.takeWhile (fun c => isDigitC c || c = '.')).all (fun c => c = '0' || c = '.')

/-- Python truthiness of a value. -/
def truthy : JValue → Bool
  | JValue.null => false
  | JValue.bool b => b
  | JValue.num s => ¬ numIsZero s
  | JValue.str s => ¬ s.isEmpty
  | JValue.arr l => ¬ l.isEmpty
  | JValue.obj m => ¬ m.isEmpty

/-- The normalizer's `pick`: first listed key that is present with a non-`None`
value (source lines 179-183). -/
def pick (m : List (Str × JValue)) : List Str → Option JValue
  | [] => none
  | k :: ks =>
    match objGet m k with
    | some JValue.null => pick m ks
    | some v => some v
    | none => pick m ks

/-- The `pick(keys, dflt) or dflt` idiom: the picked value if it is truthy,
else the default. -/
def pickOr (m : List (Str × JValue)) (keys : List Str) (dflt : JValue) : JValue :=
  let v := (pick m keys).getD dflt
  if truthy v then v else dflt

/-- A Python `or`-chain of `x.get(k)` probes: first truthy value wins; if every
probe is falsy the chain's value is the last probe's result (`none` = `None`). -/
def orChain (m : List (Str × JValue)) : List Str → Option JValue
  | [] => none
  | [k] => objGet m k
  | k :: ks =>
    match objGet m k with
    | some v => if truthy v then some v else orChain m ks
    | none => orChain m ks

/-- Accumulating scan behind `splitLinesPy`; a line break at end of input
closes the last line without adding an empty one, as in Python. -/
def splitLinesAux : Str → Str → List Str
  | [], acc => if acc.isEmpty then [] else [acc.reverse]
  | '\r' :: '\n' :: r, acc => acc.reverse :: splitLinesAux r []
  | c :: r, acc =>
    if c = '\n' || c = '\r' then acc.reverse :: splitLinesAux r []
    else splitLinesAux r (c :: acc)

/-- Python `str.splitlines()` for the newline kinds the generator can emit. -/
def splitLinesPy (s : Str) : List Str := splitLinesAux s []

/-- Python `str.split(sep)` for a one-character separator. -/
def splitChar (sep : Char) : Str → List Str
  | [] => [[]]
  | c :: r =>
    let rest := splitChar sep r
    if c = sep then [] :: rest
    else match rest with
      | h :: t => (c :: h) :: t
      | [] => [[c]]

/-- The sub-fields probed when a list element is itself a dict
(source line 192). -/
def elemProbeKeys : List Str :=
  [S "text", S "desc", S "step", S "name", S "内容", S "描述", S "步骤"]

/-- Coercion of one element of a list-typed field (source lines 190-198). -/
def normElem (x : JValue) : Str :=
  match x with
  | JValue.obj m =>
    (match orChain m elemProbeKeys with
     | some v => stripS (pyStr v)
     | none => stripS (pyStr x))
  | _ => stripS (pyStr x)

/-- `normalize_list` (source lines 185-211): native sequences, newline- or
semicolon-separated strings, or a single-element fallback. -/
def normalize_list : JValue → List Str
  | JValue.null => []
  | JValue.arr xs => (xs.map normElem).filter (· ≠ [])
  | JValue.str s0 =>
    let s := stripS s0
    if s = [] then []
    else if containsSub (S "\n") s then
      ((splitLinesPy s).map stripS).filter (· ≠ [])
    else if containsSub (S "；") s then
      ((splitChar '；' s).map stripS).filter (· ≠ [])
    else if containsSub (S ";") s then
      ((splitChar ';' s).map stripS).filter (· ≠ [])
    else [s]
  | v =>
    let t := stripS (pyStr v)
    if t = [] then [] else [t]

/-- The alias lists of `normalize_json_structure` (source lines 213-228). -/
def idKeys : List Str :=
  [S "id", S "ID", S "case_id", S "caseId", S "用例编号", S "编号", S "test_case_id", S "testcase_id"]

def descKeys : List Str :=
  [S "description", S "desc", S "用例描述", S "描述", S "name", S "title", S "标题"]

def moduleKeys : List Str :=
  [S "test_module", S "module", S "testModule", S "模块", S "功能模块", S "所属模块"]

def preKeys : List Str :=
  [S "preconditions", S "precondition", S "前置条件", S "前提条件", S "conditions"]

def stepKeys : List Str :=
  [S "steps", S "step", S "操作步骤", S "步骤", S "test_steps", S "testSteps"]

def inputKeys : List Str :=
  [S "test_input", S "input", S "testInput", S "输入", S "测试输入", S "入参"]

def expectKeys : List Str :=
  [S "expected_result", S "expected", S "expectedResult", S "预期结果", S "期望结果", S "断言"]

def prioKeys : List Str :=
  [S "priority", S "Priority", S "prio", S "优先级", S "级别"]

/-- `re.fullmatch(r"TC-\d{3,}", s)`. -/
def tcFullmatch (s : Str) : Bool :=
  startsWithS (S "TC-") s && (s.drop 3).all isDigitC && (s.drop 3).length ≥ 3

/-- `re.fullmatch(r"\d+", s)`. -/
def digitsFullmatch (s : Str) : Bool :=
  s ≠ [] && s.all isDigitC

/-- The id rule of the normalizer (source lines 213-220): accept `TC-\d{3,}`,
re-format pure digits with `TC-{n:03d}`, otherwise regenerate from the item's
enumeration index `i` as `TC-{i+1:03d}`. -/
def finalIdOf (i : Nat) (rawId : Option JValue) : Str :=
  let rawIdS := match rawId with
    | some v => stripS (pyStr v)
    | none => []
  if tcFullmatch rawIdS then rawIdS
  else if digitsFullmatch rawIdS then S "TC-" ++ pad3 (strToNat rawIdS)
  else S "TC-" ++ pad3 (i + 1)

/-- The priority clean-up (source lines 230-239). -/
def priorityNorm (p0 : Str) : Str :=
  let p := upperS p0
  if p = S "P0" || p = S "P1" || p = S "P2" then p
  else if p = S "高" || p = S "HIGH" then S "P0"
  else if p = S "中" || p = S "MEDIUM" then S "P1"
  else if p = S "低" || p = S "LOW" then S "P2"
  else S "P1"

/-- Normalization of one dict item at enumeration index `i`
(source lines 176-252). -/
def normItem (i : Nat) (m : List (Str × JValue)) : JValue :=
  let final_id := finalIdOf i (pick m idKeys)
  let description := stripS (pyStr (pickOr m descKeys (JValue.str [])))
  let test_module := stripS (pyStr (pickOr m moduleKeys (JValue.str [])))
  let preconditions := normalize_list ((pick m preKeys).getD (JValue.arr []))
  let steps := normalize_list ((pick m stepKeys).getD (JValue.arr []))
  let test_input := stripS (pyStr (pickOr m inputKeys (JValue.str [])))
  let expected_result := stripS (pyStr (pickOr m expectKeys (JValue.str [])))
  let priority := priorityNorm (stripS (pyStr (pickOr m prioKeys (JValue.str (S "P1")))))
  JValue.obj
    [(S "id", JValue.str final_id),
     (S "description", JValue.str description),
     (S "test_module", JValue.str test_module),
     (S "preconditions", JValue.arr (preconditions.map JValue.str)),
     (S "steps", JValue.arr (steps.map JValue.str)),
     (S "test_input", JValue.str test_input),
     (S "expected_result", JValue.str expected_result),
     (S "priority", JValue.str priority)]

/-- The enumeration loop of `normalize_json_structure`: non-dict items are
dropped, but still advance the enumeration index. -/
def normItems (i : Nat) : List JValue → List JValue
  | [] => []
  | JValue.obj m :: rest => normItem i m :: normItems (i + 1) rest
  | _ :: rest => normItems (i + 1) rest

/-- `normalize_json_structure(data)` (source lines 166-254): non-list input is
returned unchanged. -/
def normalize_json_structure (v : JValue) : JValue :=
  match v with
  | JValue.arr l => JValue.arr (normItems 0 l)
  | other => other

/-- The provider-error sentinel test applied to every streamed chunk
(source lines 755 and 839). -/
def isSentinel (c : Str) : Bool :=
  startsWithS (S "Error:") c || startsWithS (S "[额度耗尽]") c ||
    startsWithS (S "Exception occurred:") c

/-- One history line, `f"{case.get('id', '')}: {case.get('description', '')}"`;
non-dict entries contribute nothing (source lines 695-698 and 784-786). -/
def histLine (v : JValue) : Option Str :=
  match v with
  | JValue.obj m =>
    some (pyStr ((objGet m (S "id")).getD (JValue.str [])) ++ S ": " ++
          pyStr ((objGet m (S "description")).getD (JValue.str [])))
  | _ => none

/-- Status line of a batch attempt (source line 714). -/
def statusBatch (i tb cbc att : Nat) : Str :=
  S "@@STATUS@@:正在生成第 " ++ natToStr (i + 1) ++ S "/" ++ natToStr tb ++
    S " 批次 (" ++ natToStr cbc ++ S " 条) - 第 " ++ natToStr att ++ S " 次尝试...\n"

/-- Auto-continuation announcement in append mode (source line 683). -/
def statusBump (cur exp bs : Nat) : Str :=
  S "@@STATUS@@:当前用例数(" ++ natToStr cur ++ S ")已达预期(" ++ natToStr exp ++
    S ")，自动增加 " ++ natToStr bs ++ S " 条用例...\n"

def statusRetryEmpty : Str := S "\n@@STATUS@@:模型未返回内容，正在重试...\n"

def statusFail : Str := S "\n@@STATUS@@:生成失败\n"

def errNoContent : Str :=
  S "Error: 模型未返回内容（可能是模型配置/额度/网络/内容安全导致），请检查后重试\n"

/-- Status line of a supplement attempt (source line 820). -/
def statusSupplement (missing att : Nat) : Str :=
  S "@@STATUS@@:检测到缺少 " ++ natToStr missing ++ S " 条用例，正在补齐(第 " ++
    natToStr att ++ S " 次)...\n"

/-- Overshoot truncation announcement (source line 878). -/
def statusTrunc (cur exp : Nat) : Str :=
  S "@@STATUS@@:已生成 " ++ natToStr cur ++ S " 条，超出预期的 " ++ natToStr exp ++
    S " 条，自动截取前 " ++ natToStr exp ++ S " 条。\n"

def errEmptyArr : Str :=
  S "Error: 模型返回空数组或解析不到有效用例，请检查模型配置/提示词/网络后重试\n"

/-- A generation request as received by `generate_test_cases_stream`; the
`db` session is assumed present (all claims concern normal operation) and
`existing` is the most recent matching persisted record's parsed list in
append mode (`none` when no record matches). -/
structure GenConfig where
  expected : Nat
  append : Bool
  overwrite : Bool
  compress : Bool
  existing : Option (List JValue)

/-- Inputs to the context-preparation phase: the requirement text, the full
knowledge context (`get_all_context`) and the two retrieval results
(`get_relevant_context` with limit 10 and limit 5), all best-effort oracle
data. -/
structure PrepIn where
  requirement : Str
  fullContext : Str
  rag10 : Str
  rag5 : Str

/-- Result of the context-preparation phase; `calls` counts the
`compress_context` invocations made. -/
structure PrepOut where
  req : Str
  kb : Str
  yields : List Str
  calls : Nat

def statusCompressing : Str :=
  S "@@STATUS@@:正在进行智能上下文压缩及知识库检索，这可能需要几十秒，请耐心等待...\n"

def statusKbDone (before after : Nat) : Str :=
  S "@@STATUS@@:知识库压缩完成 (" ++ natToStr before ++ S " -> " ++ natToStr after ++ S " 字符)...\n"

def statusKbAbnormal (snippet : Str) : Str :=
  S "@@STATUS@@:知识库压缩返回异常 (" ++ snippet ++ S "...)，转为使用RAG检索...\n"

def statusKbExc (msg : Str) : Str :=
  S "@@STATUS@@:知识库压缩失败 (" ++ msg ++ S ")，转为使用RAG检索...\n"

def statusRag (n : Nat) : Str :=
  S "@@STATUS@@:已通过RAG检索相关知识 (" ++ natToStr n ++ S " 字符)...\n"

def statusReqDone (before after : Nat) : Str :=
  S "@@STATUS@@:需求压缩完成 (" ++ natToStr before ++ S " -> " ++ natToStr after ++ S " 字符)...\n"

def statusReqAbnormal (snippet : Str) : Str :=
  S "@@STATUS@@:需求压缩返回异常，使用原始文本: " ++ snippet ++ S "...\n"

def statusReqExc (msg : Str) : Str :=
  S "@@STATUS@@:需求压缩失败 (" ++ msg ++ S ")，将使用原始文本...\n"

def statusLongReq : Str :=
  S "@@STATUS@@:输入内容较长，正在进行智能压缩以适配模型上下文...\n"

def statusLongReqDone (before after : Nat) : Str :=
  S "@@STATUS@@:长文本压缩完成 (" ++ natToStr before ++ S " -> " ++ natToStr after ++ S " 字符)...\n"

def statusLongReqAbnormal : Str := S "@@STATUS@@:长文本压缩异常，使用原始文本...\n"

def statusLongKb : Str :=
  S "@@STATUS@@:知识库上下文较长，正在进行智能压缩以适配模型上下文...\n"

def statusLongKbAbnormal : Str := S "@@STATUS@@:知识库压缩异常，使用原始文本...\n"

/-- The context-preparation phase of `generate_test_cases_stream`
(source lines 502-585).  `co` is the `compress_context` capability: `ok` is
its returned text, `error` a raised exception's message.  In compression mode
the knowledge context and the requirement each get one compression attempt
(with RAG fallback for the former); only when compression was NOT requested
does the ~120000-character safety valve run, over the requirement and then
the retrieved context. -/
def prepareContext (compress : Bool) (pin : PrepIn) (co : Nat → Except Str Str) : PrepOut :=
  if compress then
    let kbPart :=
      if ¬ pin.fullContext.isEmpty then
        match co 0 with
        | Except.ok ks =>
          if ¬ ks.isEmpty && ¬ startsWithS (S "Error") ks && ¬ startsWithS (S "Exception") ks then
            (ks, [statusKbDone pin.fullContext.length ks.length], 1, true)
          else (([] : Str), [statusKbAbnormal (ks.take 50)], 1, false)
        | Except.error e => (([] : Str), [statusKbExc e], 1, false)
      else (([] : Str), ([] : List Str), 0, false)
    let kb1 := kbPart.1
    let y1 := kbPart.2.1
    let c1 := kbPart.2.2.1
    let succ := kbPart.2.2.2
    let kb2 := if ¬ succ then pin.rag10 else kb1
    let y2 : List Str :=
      if ¬ succ && ¬ pin.rag10.isEmpty then [statusRag pin.rag10.length] else []
    let reqPart :=
      match co c1 with
      | Except.ok cr =>
        if ¬ cr.isEmpty && ¬ startsWithS (S "Error") cr then
          (cr, [statusReqDone pin.requirement.length cr.length])
        else (pin.requirement, [statusReqAbnormal (cr.take 50)])
      | Except.error e => (pin.requirement, [statusReqExc e])
    { req := reqPart.1, kb := kb2,
      yields := statusCompressing :: (y1 ++ y2 ++ reqPart.2),
      calls := c1 + 1 }
  else
    let kb0 := pin.rag5
    let req0 := pin.requirement
    let reqValve :=
      if ¬ req0.isEmpty && 120000 < req0.length then
        match co 0 with
        | Except.ok cr =>
          if ¬ cr.isEmpty && ¬ startsWithS (S "Error") cr then
            (cr, [statusLongReq, statusLongReqDone req0.length cr.length], 1)
          else (req0, [statusLongReq, statusLongReqAbnormal], 1)
        | Except.error _ => (req0, [statusLongReq], 1)
      else (req0, ([] : List Str), 0)
    let req1 := reqValve.1
    let yv1 := reqValve.2.1
    let cv1 := reqValve.2.2
    let kbValve :=
      if ¬ kb0.isEmpty && 120000 < kb0.length then
        match co cv1 with
        | Except.ok ck =>
          if ¬ ck.isEmpty && ¬ startsWithS (S "Error") ck then
            (ck, [statusLongKb, statusKbDone kb0.length ck.length], 1)
          else (kb0, [statusLongKb, statusLongKbAbnormal], 1)
        | Except.error _ => (kb0, [statusLongKb], 1)
      else (kb0, ([] : List Str), 0)
    { req := req1, kb := kbValve.1,
      yields := yv1 ++ kbValve.2.1,
      calls := cv1 + kbValve.2.2 }

/-- Mutable state of the streaming loop: next oracle call index, the
accumulated `full_content`, the de-duplication history, the emitted stream
and whether a provider-error sentinel was seen. -/
structure OrSt where
  callIdx : Nat
  fullContent : Str
  history : List Str
  yields : List Str
  sawProviderError : Bool

/-- The `for chunk in stream` loop body (source lines 750-757): every chunk is
accumulated and yielded; the first sentinel chunk stops consumption.  Returns
the accumulated text, the yielded chunks, and the sentinel if one occurred. -/
def consumeChunks : List Str → (Str × List Str × Option Str)
  | [] => ([], [], none)
  | c :: cs =>
    if isSentinel c then (c, [c], some c)
    else
      let p := consumeChunks cs
      (c ++ p.1, c :: p.2.1, p.2.2)

/-- The first provider-error sentinel a stream would deliver, if any. -/
def streamSentinel (chunks : List Str) : Option Str := (consumeChunks chunks).2.2

/-- The per-batch attempt loop (source lines 711-788), with fuel `3 - attempt`.
A provider error or a third empty response ends the batch (the source sets
`attempt = 3` and breaks); a successful attempt parses the accumulated
`batch_content` and retries while the quota is unmet. -/
def runAttempts (oracle : Nat → List Str) (i tb cbc : Nat) :
    Nat → Nat → Nat → Str → OrSt → (OrSt × Str × Nat)
  | 0, _, gib, bc, st => (st, bc, gib)
  | f + 1, attempt, gib, bc, st =>
    if gib < cbc then
      let attempt' := attempt + 1
      let st := {st with yields := st.yields ++ [statusBatch i tb cbc attempt']}
      let p := consumeChunks (oracle st.callIdx)
      let acc := p.1
      let st := {st with callIdx := st.callIdx + 1,
                         fullContent := st.fullContent ++ acc,
                         yields := st.yields ++ p.2.1}
      let bc := bc ++ acc
      match p.2.2 with
      | some e =>
        ({st with yields := st.yields ++ [statusFail, e ++ S "\n"],
                  sawProviderError := true}, bc, gib)
      | none =>
        if (stripS acc).isEmpty then
          if attempt' < 3 then
            runAttempts oracle i tb cbc f attempt' gib bc
              {st with yields := st.yields ++ [statusRetryEmpty]}
          else
            ({st with yields := st.yields ++ [statusFail, errNoContent]}, bc, gib)
        else
          let st := {st with fullContent := st.fullContent ++ S "\n",
                             yields := st.yields ++ [S "\n"]}
          let bc := bc ++ S "\n"
          match normalize_json_structure (clean_and_parse_json bc) with
          | JValue.arr items =>
            let st := {st with history := st.history ++ items.filterMap histLine}
            runAttempts oracle i tb cbc f attempt' items.length bc st
          | _ => runAttempts oracle i tb cbc f attempt' gib bc st
    else (st, bc, gib)

/-- The `for i in range(total_batches)` loop (source lines 700-790); a batch
whose remaining need is zero breaks out of the loop. -/
def runBatches (oracle : Nat → List Str) (tb bs startId expected : Nat) :
    List Nat → Nat → OrSt → OrSt
  | [], _, st => st
  | i :: rest, currentId, st =>
    let remaining := expected - (currentId - startId)
    let cbc := min bs remaining
    if cbc = 0 then st
    else
      let r := runAttempts oracle i tb cbc 3 0 0 [] st
      runBatches oracle tb bs startId expected rest (currentId + cbc) r.1

/-- The plan derived before the batch loop (source lines 479-698): dynamic
batch size, auto-continuation bump of the target in append mode, ceil-divided
batch count and the initial de-duplication history. -/
structure Plan where
  batchSize : Nat
  expected : Nat
  startId : Nat
  totalBatches : Nat
  existingCases : List JValue
  historyInit : List Str
  yields : List Str

/-- Planning (source lines 479-698).  Subtractions that Python performs on
possibly-negative ints are `Nat`-truncated here; in every such spot the
truncated value drives the same branch or loop count as the negative value
does in the source (a negative `needed_to_append` picks `max(1, ·) = 1`, a
non-positive batch count runs zero batches). -/
def planRun (cfg : GenConfig) : Plan :=
  let existingCases := if cfg.append then cfg.existing.getD [] else []
  let startId := if cfg.append then
      (match cfg.existing with
       | some l => l.length + 1
       | none => 1)
    else 1
  let exLen := existingCases.length
  let batchSize0 :=
    if cfg.append then
      let needed := cfg.expected - exLen
      if needed > 25 then 25 else max 1 needed
    else 25
  let batchSize := max 1 batchSize0
  let expected2 :=
    if cfg.append && cfg.expected ≤ exLen then exLen + batchSize else cfg.expected
  let totalBatches := (expected2 - (startId - 1) + batchSize - 1) / batchSize
  { batchSize := batchSize, expected := expected2, startId := startId,
    totalBatches := totalBatches, existingCases := existingCases,
    historyInit := if cfg.append then existingCases.filterMap histLine else [],
    yields :=
      if cfg.append && cfg.expected ≤ exLen then [statusBump exLen cfg.expected batchSize]
      else [] }

/-- The shortfall-supplement loop (source lines 815-860), with fuel
`3 - supplement_attempt`; a provider error breaks out, a parsed non-empty
extra list is appended and the whole list re-normalized. -/
def runSupplement (oracle : Nat → List Str) (expected exLen : Nat) (app : Bool) :
    Nat → Nat → List JValue → OrSt → (List JValue × OrSt)
  | 0, _, l, st => (l, st)
  | f + 1, sa, l, st =>
    let currentTotal := l.length + (if app then exLen else 0)
    let missing := expected - currentTotal
    if missing = 0 then (l, st)
    else
      let sa' := sa + 1
      let st := {st with yields := st.yields ++ [statusSupplement missing sa']}
      let p := consumeChunks (oracle st.callIdx)
      let st := {st with callIdx := st.callIdx + 1,
                         fullContent := st.fullContent ++ p.1,
                         yields := st.yields ++ p.2.1}
      match p.2.2 with
      | some e =>
        (l, {st with yields := st.yields ++ [statusFail, e ++ S "\n"],
                     sawProviderError := true})
      | none =>
        let st := {st with fullContent := st.fullContent ++ S "\n",
                           yields := st.yields ++ [S "\n"]}
        match normalize_json_structure (clean_and_parse_json p.1) with
        | JValue.arr items =>
          if items.isEmpty then runSupplement oracle expected exLen app f sa' l st
          else runSupplement oracle expected exLen app f sa' (normItems 0 (l ++ items)) st
        | _ => runSupplement oracle expected exLen app f sa' l st

/-- Overshoot truncation (source lines 862-878): only the newly generated
tail is cut, never the pre-existing records. -/
def truncStep (app : Bool) (exLen expected : Nat) (l : List JValue) :
    List JValue × List Str :=
  let currentTotal := l.length + (if app then exLen else 0)
  if expected < currentTotal then
    let targetNew := if app then expected - exLen else expected
    if targetNew < l.length then (l.take targetNew, [statusTrunc currentTotal expected])
    else (l, [])
  else (l, [])

/-- The payload written to the persistence collaborator (source lines
890-929): `overwrite` replaces (or creates) with the final value, append with
a located record concatenates lists (and skips the write when the final value
is not a list), otherwise a new record is created. -/
def persistOutcome (cfg : GenConfig) (existingCases : List JValue) (v : JValue) :
    Option JValue :=
  if cfg.overwrite then some v
  else if cfg.append && cfg.existing.isSome then
    match v with
    | JValue.arr l => some (JValue.arr (existingCases ++ l))
    | _ => none
  else some v

/-- Outcome of a whole run: the emitted stream, the final parsed value, the
persisted payload (`none` when nothing was written), the number of
`generate_response_stream` calls and whether a provider error was seen. -/
structure RunResult where
  yields : List Str
  finalParsed : JValue
  written : Option JValue
  calls : Nat
  sawProviderError : Bool

/-- Post-processing after the batch loop (source lines 792-1043): parse and
normalize the accumulated `full_content`, supplement a shortfall, truncate an
overshoot, report an error dict or an empty list, persist.  The closing
metrics block (source lines 931-1040) builds its `qm` dict from
`metrics_data`, a name defined nowhere in the module; the resulting
`NameError` is swallowed by the `except` on line 1039, so the block
contributes no `GEN_QM:` yield and no terminal marker, which is how it is
modelled here. -/
def postProcess (cfg : GenConfig) (plan : Plan) (oracle : Nat → List Str)
    (st0 : OrSt) : RunResult :=
  let parsed0 := normalize_json_structure (clean_and_parse_json st0.fullContent)
  let exLen := plan.existingCases.length
  let step1 :=
    match parsed0 with
    | JValue.arr l =>
      if plan.expected ≠ 0 then
        let s := runSupplement oracle plan.expected exLen cfg.append 3 0 l st0
        let t := truncStep cfg.append exLen plan.expected s.1
        (JValue.arr t.1, {s.2 with yields := s.2.yields ++ t.2})
      else (JValue.arr l, st0)
    | other => (other, st0)
  let parsedFinal := step1.1
  let st := step1.2
  let st :=
    match parsedFinal with
    | JValue.obj m =>
      if truthy ((objGet m (S "error")).getD JValue.null) then
        {st with yields := st.yields ++
          [statusFail, S "Error: " ++ pyStr ((objGet m (S "error")).getD JValue.null) ++ S "\n"]}
      else st
    | JValue.arr l =>
      if l.isEmpty then {st with yields := st.yields ++ [statusFail, errEmptyArr]} else st
    | _ => st
  { yields := st.yields, finalParsed := parsedFinal,
    written := persistOutcome cfg plan.existingCases parsedFinal,
    calls := st.callIdx, sawProviderError := st.sawProviderError }

/-- `generate_test_cases_stream` (source lines 471-1043), as a function of the
request, the preparation inputs, the `compress_context` oracle and the
`generate_response_stream` oracle (call `n` of the latter returns the chunk
sequence `oracle n`). -/
def generate_test_cases_stream (cfg : GenConfig) (pin : PrepIn)
    (co : Nat → Except Str Str) (oracle : Nat → List Str) : RunResult :=
  let prep := prepareContext cfg.compress pin co
  let plan := planRun cfg
  let st0 : OrSt := { callIdx := 0, fullContent := [], history := plan.historyInit,
                      yields := prep.yields ++ plan.yields, sawProviderError := false }
  let st1 := runBatches oracle plan.totalBatches plan.batchSize plan.startId
    plan.expected (List.range plan.totalBatches) plan.startId st0
  postProcess cfg plan oracle st1

/-- A structured value in the sense of the Recovery Parser's contract: a list
or a mapping. -/
def isStructured : JValue → Bool
  | JValue.arr _ => true
  | JValue.obj _ => true
  | _ => false

/-- Length of a parsed list; `0` for any non-list value. -/
def listLen : JValue → Nat
  | JValue.arr l => l.length
  | _ => 0

/-- The `id` field of a normalized record. -/
def recordId (r : JValue) : Str :=
  match r with
  | JValue.obj m =>
    (match objGet m (S "id") with
     | some (JValue.str s) => s
     | _ => [])
  | _ => []

/-- The ids of a normalized list, in order. -/
def recordIds (v : JValue) : List Str :=
  match v with
  | JValue.arr l => l.map recordId
  | _ => []

/-- The id rule of the (amended) specification, spelled out per input
position: an id matching `TC-\d{3,}` is kept, a purely numeric one is
re-formatted zero-padded, anything else becomes `TC-{i+1:03d}` from the
item's enumeration index alone — no caller-supplied offset exists. -/
def specIdList : Nat → List (List (Str × JValue)) → List Str
  | _, [] => []
  | i, m :: rest => finalIdOf i (pick m idKeys) :: specIdList (i + 1) rest

/-- Is this value a string? -/
def isStrJ : JValue → Bool
  | JValue.str _ => true
  | _ => false

/-- The priority enum check: one of `P0`, `P1`, `P2`. -/
def isValidPriority (p : Str) : Bool :=
  p = S "P0" || p = S "P1" || p = S "P2"

/-- The canonical record shape of the (amended) data-model invariant: exactly
the eight fields in order, string-valued except the two string-list fields,
priority one of P0/P1/P2. -/
def isCanonicalRecord : JValue → Bool
  | JValue.obj [(k1, JValue.str _), (k2, JValue.str _), (k3, JValue.str _),
                (k4, JValue.arr pre), (k5, JValue.arr st), (k6, JValue.str _),
                (k7, JValue.str _), (k8, JValue.str p)] =>
    (k1 = S "id" && k2 = S "description" && k3 = S "test_module" &&
     k4 = S "preconditions" && k5 = S "steps" && k6 = S "test_input" &&
     k7 = S "expected_result" && k8 = S "priority") &&
    pre.all isStrJ && st.all isStrJ && isValidPriority p
  | _ => false

/-- All records of a normalized list satisfy a predicate (`false` for
non-lists). -/
def recordsAll (p : JValue → Bool) : JValue → Bool
  | JValue.arr l => l.all p
  | _ => false

/-- The `steps` length of the first record of a normalized list, when
present. -/
def firstRecordStepsCount (v : JValue) : Option Nat :=
  match v with
  | JValue.arr (JValue.obj m :: _) =>
    (match objGet m (S "steps") with
     | some (JValue.arr s) => some s.length
     | _ => none)
  | _ => none

/-- The record count the Count Contract speaks about: newly generated records
(the final parsed list) plus the pre-existing records in append mode. -/
def finalCountOf (cfg : GenConfig) (r : RunResult) : Nat :=
  listLen r.finalParsed + (if cfg.append then (cfg.existing.getD []).length else 0)

/-- The persisted record's list after the run: the written payload when a list
was written, otherwise the pre-existing list (nothing was replaced). -/
def storedAfterRun (cfg : GenConfig) (r : RunResult) : List JValue :=
  match r.written with
  | some (JValue.arr l) => l
  | _ => (if cfg.append then cfg.existing.getD [] else [])

/-- Trivial preparation inputs for concrete runs (no compression, no
retrieval hits). -/
def pinTriv : PrepIn := { requirement := S "r", fullContext := [], rag10 := [], rag5 := [] }

/-- A compression oracle that always returns an empty summary (never consulted
in the concrete runs below, which do not request compression). -/
def coTriv : Nat → Except Str Str := fun _ => Except.ok []

/-- Concrete request for the count-contract counterexample: fresh `create`
run, target 3. -/
def cfgCount : GenConfig :=
  { expected := 3, append := false, overwrite := false, compress := false, existing := none }

/-- A generator that streams no content at all on every call. -/
def oracleEmpty : Nat → List Str := fun _ => []

/-- Concrete request for the provider-error counterexample: fresh `create`
run, target 30, hence two planned batches (25 + 5). -/
def cfgErr : GenConfig :=
  { expected := 30, append := false, overwrite := false, compress := false, existing := none }

/-- A generator whose every stream yields one rate-limit sentinel chunk. -/
def oracleErr : Nat → List Str := fun _ => [S "Error: HTTP 429 - rate limited"]

/-- Concrete request for the metrics run: fresh `create` run, target 1. -/
def cfgNine : GenConfig :=
  { expected := 1, append := false, overwrite := false, compress := false, existing := none }

/-- A generator returning one complete, well-formed record. -/
def oracleNine : Nat → List Str :=
  fun _ => [S "[\x7b\"id\": \"TC-001\", \"steps\": [\"a\"]\x7d]"]

/-- Ten pre-existing persisted records. -/
def exTen : List JValue :=
  List.replicate 10 (JValue.obj [(S "id", JValue.str (S "TC-001"))])

/-- Append-mode request with ten pre-existing records and target 10
(the auto-continuation example). -/
def cfgBump : GenConfig :=
  { expected := 10, append := true, overwrite := false, compress := false, existing := some exTen }

/-- One pre-existing record for the append-preservation witness. -/
def exOne : List JValue := [JValue.str (S "old")]

/-- Append-mode request with one pre-existing record, target 2. -/
def cfgApp : GenConfig :=
  { expected := 2, append := true, overwrite := false, compress := false, existing := some exOne }

/-- A generator returning one record per call. -/
def oracleOne : Nat → List Str :=
  fun _ => [S "[\x7b\"id\": \"TC-002\", \"steps\": [\"s\"]\x7d]"]

/-- An oversized requirement (120001 characters). -/
def bigReq : Str := 'a' :: List.replicate 120000 'a'

/-- An oversized compression result (120001 characters). -/
def bigOut : Str := 'b' :: List.replicate 120000 'b'

/-- Preparation inputs whose requirement exceeds the 120000-character
threshold. -/
def pinBig : PrepIn := { requirement := bigReq, fullContext := [], rag10 := [], rag5 := [] }

/-- A compression capability that answers with the oversized text. -/
def coBig : Nat → Except Str Str := fun _ => Except.ok bigOut

/-- The orchestrator state at the start of the batch loop of a fresh run. -/
def stInit : OrSt :=
  { callIdx := 0, fullContent := [], history := [], yields := [], sawProviderError := false }

/-- Claim C4: for each of the six input shapes — a clean JSON array, a JSON
array wrapped in markdown code fences, JSON with one trailing comma, a JSON
array missing its final `]`, two JSON arrays concatenated with stray text
between them, and a single-quoted Python-literal array — the recovery parser
returns a non-failure structured value equal to the intended logical content
of the input. -/
theorem c4_parser_robustness :
    clean_and_parse_json (S "[\x7b\"id\": \"TC-001\", \"steps\": [\"a\"]\x7d]")
      = JValue.arr [JValue.obj [(S "id", JValue.str (S "TC-001")),
                                (S "steps", JValue.arr [JValue.str (S "a")])]] ∧
    clean_and_parse_json (S "Here is the result:\n```json\n[\x7b\"id\": \"TC-001\"\x7d]\n```\nDone.")
      = JValue.arr [JValue.obj [(S "id", JValue.str (S "TC-001"))]] ∧
    clean_and_parse_json (S "[\x7b\"x\": \"y\"\x7d,]")
      = JValue.arr [JValue.obj [(S "x", JValue.str (S "y"))]] ∧
    clean_and_parse_json (S "[\x7b\"id\": \"TC-001\", \"steps\": [\"a\"]\x7d, \x7b\"id\": \"TC-002\", \"steps\": [\"b\"]\x7d")
      = JValue.arr [JValue.obj [(S "id", JValue.str (S "TC-001")),
                                (S "steps", JValue.arr [JValue.str (S "a")])],
                    JValue.obj [(S "id", JValue.str (S "TC-002")),
                                (S "steps", JValue.arr [JValue.str (S "b")])]] ∧
    clean_and_parse_json (S "[\x7b\"a\": \"1\"\x7d] and also [\x7b\"b\": \"2\"\x7d]")
      = JValue.arr [JValue.obj [(S "a", JValue.str (S "1"))],
                    JValue.obj [(S "b", JValue.str (S "2"))]] ∧
    clean_and_parse_json (S "[\x7b'id': 'TC-001', 'steps': ['a']\x7d]")
      = JValue.arr [JValue.obj [(S "id", JValue.str (S "TC-001")),
                                (S "steps", JValue.arr [JValue.str (S "a")])]] :=
  ⟨rfl, rfl, rfl, rfl, rfl, rfl⟩

/-- Claim C2, counterexample: the normalizer keeps a model-supplied id that
already matches `TC-\d{3,}` — for a batch whose starting offset is 1 and a
single-item batch carrying raw id `TC-999`, the resulting id is `TC-999`, not
the claimed `TC-001`. -/
theorem c2_counterexample :
    recordIds (normalize_json_structure
        (JValue.arr [JValue.obj [(S "id", JValue.str (S "TC-999"))]]))
      = [S "TC-999"] ∧ S "TC-999" ≠ S "TC-001" :=
  ⟨rfl, by decide⟩

/-- Claim C6, counterexample: normalizing a record with no step information
produces a record whose `steps` list is empty — `steps` is not guaranteed
non-empty after normalization. -/
theorem c6_counterexample :
    firstRecordStepsCount (normalize_json_structure (JValue.arr [JValue.obj []]))
      = some 0 :=
  rfl

/-- Claim C1, counterexample: with target 3 and a generator that streams no
content at all (no provider-error sentinel ever occurs), the run ends with
zero records — the count is not "exactly T" in the error-free case. -/
theorem c1_counterexample :
    (generate_test_cases_stream cfgCount pinTriv coTriv oracleEmpty).sawProviderError = false ∧
    finalCountOf cfgCount (generate_test_cases_stream cfgCount pinTriv coTriv oracleEmpty) = 0 ∧
    cfgCount.expected = 3 :=
  ⟨rfl, rfl, rfl⟩

/-- Claim C3, counterexample: a rate-limit sentinel chunk in the very first
stream does not stop the orchestrator — a second batch still issues a
generation call (2 calls in total), and the last line of the stream is the
post-processing parse-failure report, not the provider's error text. -/
theorem c3_counterexample :
    streamSentinel (oracleErr 0) = some (S "Error: HTTP 429 - rate limited") ∧
    (generate_test_cases_stream cfgErr pinTriv coTriv oracleErr).calls = 2 ∧
    (generate_test_cases_stream cfgErr pinTriv coTriv oracleErr).yields.getLast?
      = some (S "Error: Failed to parse JSON\n") :=
  ⟨rfl, rfl, rfl⟩

/-- Claim C9: on a run that completes generation and persists a successfully
parsed one-record list, the stream contains no `GEN_QM:` line at all and ends
on a bare newline rather than a terminal marker — the metrics block dies on
the undefined name `metrics_data` (source line 1026) before its `GEN_QM:`
yield, and the `except` on line 1039 swallows the `NameError`. -/
theorem c9_metrics_never_emitted :
    listLen (generate_test_cases_stream cfgNine pinTriv coTriv oracleNine).finalParsed = 1 ∧
    (generate_test_cases_stream cfgNine pinTriv coTriv oracleNine).written.isSome = true ∧
    (generate_test_cases_stream cfgNine pinTriv coTriv oracleNine).yields.all
      (fun y => !(startsWithS (S "GEN_QM:") y)) = true ∧
    (generate_test_cases_stream cfgNine pinTriv coTriv oracleNine).yields.getLast?
      = some (S "\n") :=
  ⟨rfl, rfl, rfl, rfl⟩

/-- The id of a normalized item is exactly the normalizer's id rule applied at
its enumeration index. -/
theorem recordId_normItem (i : Nat) (m : List (Str × JValue)) :
    recordId (normItem i m) = finalIdOf i (pick m idKeys) := rfl

/-- The ids produced by the enumeration loop, for a list of dict items, are
the id rule mapped over positions starting at `i`. -/
theorem normItems_ids (ms : List (List (Str × JValue))) :
    ∀ i, (normItems i (ms.map JValue.obj)).map recordId = specIdList i ms := by
  induction ms with
  | nil => intro i; rfl
  | cons m rest ih =>
    intro i
    simp [normItems, specIdList, recordId_normItem, ih]

/-- Claim C2, amended: the normalizer has no caller-supplied offset; for a
batch of dict items, the ids are exactly the per-item rule — an id matching
`TC-\d{3,}` is kept verbatim, a purely numeric id is re-formatted zero-padded,
and only otherwise is the id regenerated as `TC-{i+1:03d}` from the item's
position `i` in the batch alone. -/
theorem c2_id_rule (ms : List (List (Str × JValue))) :
    recordIds (normalize_json_structure (JValue.arr (ms.map JValue.obj)))
      = specIdList 0 ms := by
  simpa [normalize_json_structure, recordIds] using normItems_ids ms 0

/-- The priority clean-up always lands in the enum. -/
theorem priorityNorm_valid (p0 : Str) : isValidPriority (priorityNorm p0) = true := by
  simp only [priorityNorm, isValidPriority]
  split_ifs with h1 h2 h3 h4 <;> simp_all

/-- Every record built by `normItem` has the canonical shape. -/
theorem isCanonicalRecord_normItem (i : Nat) (m : List (Str × JValue)) :
    isCanonicalRecord (normItem i m) = true := by
  simp [normItem, isCanonicalRecord, List.all_map, isStrJ, priorityNorm_valid]

/-- Every record in the enumeration loop's output has the canonical shape. -/
theorem normItems_canonical (l : List JValue) :
    ∀ i, (normItems i l).all isCanonicalRecord = true := by
  induction l with
  | nil => intro i; rfl
  | cons x rest ih =>
    intro i
    cases x <;> simp [normItems, ih, isCanonicalRecord_normItem]

/-- Claim C6, amended: for every input list, every record produced by
normalization exposes exactly the eight canonical fields (unknown input fields
dropped, missing fields defaulted), with `preconditions` and `steps` lists of
strings (possibly empty — non-emptiness of `steps` is NOT enforced) and
priority one of P0/P1/P2. -/
theorem c6_canonical_shape (l : List JValue) :
    recordsAll isCanonicalRecord (normalize_json_structure (JValue.arr l)) = true := by
  simpa [normalize_json_structure, recordsAll] using normItems_canonical l 0

/-- Claim C8: in append mode, when the pre-existing record count already meets
or exceeds the requested target, planning raises the target — before any batch
runs — to the pre-existing count plus one batch size (the dynamically computed
batch size of the plan). -/
theorem c8_auto_continuation (ex : List JValue) (T : Nat) (ov cp : Bool)
    (h : T ≤ ex.length) :
    (planRun { expected := T, append := true, overwrite := ov, compress := cp,
               existing := some ex }).expected
      = ex.length +
        (planRun { expected := T, append := true, overwrite := ov, compress := cp,
                   existing := some ex }).batchSize := by
  simp [planRun, h]

/-- Witness for C8 at the spec's example: 10 pre-existing records, target 10;
the plan's batch size is `max 1 (10 - 10) = 1`, so the new target is
`10 + batch_size = 11`. -/
theorem c8_auto_continuation_witness :
    10 ≤ exTen.length ∧
    (planRun cfgBump).expected = exTen.length + (planRun cfgBump).batchSize ∧
    (planRun cfgBump).expected = 11 ∧ (planRun cfgBump).batchSize = 1 :=
  ⟨by decide, c8_auto_continuation exTen 10 false false (by decide), rfl, rfl⟩

theorem pj_zero (st : PSt) : pj 0 st = none := rfl

theorem pj_parr_eq (f : Nat) (acc : List JValue) (s : Str) :
    pj (f + 1) (PSt.parr acc s) =
      (match pj f (PSt.pval s) with
       | none => none
       | some (v, rest) =>
         match skipWs rest with
         | ']' :: r2 => some (JValue.arr (acc ++ [v]), r2)
         | ',' :: r2 => pj f (PSt.parr (acc ++ [v]) (skipWs r2))
         | _ => none) := rfl

theorem pj_pobj_eq (f : Nat) (acc : List (Str × JValue)) (s : Str) :
    pj (f + 1) (PSt.pobj acc s) =
      (match s with
       | '"' :: r =>
         (match jsonStr r with
          | none => none
          | some (k, rest) =>
            match skipWs rest with
            | ':' :: r2 =>
              (match pj f (PSt.pval (skipWs r2)) with
               | none => none
               | some (v, rest2) =>
                 match skipWs rest2 with
                 | '}' :: r3 =>
                   some (JValue.obj ((acc ++ [(k, v)]).foldl (fun m p => objInsert m p.1 p.2) []), r3)
                 | ',' :: r3 => pj f (PSt.pobj (acc ++ [(k, v)]) (skipWs r3))
                 | _ => none)
            | _ => none)
       | _ => none) := rfl

theorem pj_pval_arr_eq (f : Nat) (r : Str) :
    pj (f + 1) (PSt.pval ('[' :: r)) =
      (match skipWs r with
       | ']' :: r2 => some (JValue.arr [], r2)
       | r2 => pj f (PSt.parr [] r2)) := rfl

theorem pj_pval_obj_eq (f : Nat) (r : Str) :
    pj (f + 1) (PSt.pval ('{' :: r)) =
      (match skipWs r with
       | '}' :: r2 => some (JValue.obj [], r2)
       | r2 => pj f (PSt.pobj [] r2)) := rfl

/-- A successful array-items parse yields an array value. -/
theorem pj_parr_arr : ∀ (f : Nat) (acc : List JValue) (s : Str) (v : JValue) (rest : Str),
    pj f (PSt.parr acc s) = some (v, rest) → ∃ l, v = JValue.arr l := by
  intro f
  induction f with
  | zero => intro acc s v rest h; rw [pj_zero] at h; exact Option.noConfusion h
  | succ f ih =>
    intro acc s v rest h
    rw [pj_parr_eq] at h
    split at h
    · exact Option.noConfusion h
    · split at h
      · simp only [Option.some.injEq, Prod.mk.injEq] at h
        exact ⟨_, h.1.symm⟩
      · exact ih _ _ _ _ h
      · exact Option.noConfusion h

/-- A successful object-fields parse yields an object value. -/
theorem pj_pobj_obj : ∀ (f : Nat) (acc : List (Str × JValue)) (s : Str) (v : JValue) (rest : Str),
    pj f (PSt.pobj acc s) = some (v, rest) → ∃ m, v = JValue.obj m := by
  intro f
  induction f with
  | zero => intro acc s v rest h; rw [pj_zero] at h; exact Option.noConfusion h
  | succ f ih =>
    intro acc s v rest h
    rw [pj_pobj_eq] at h
    split at h
    · split at h
      · exact Option.noConfusion h
      · split at h
        · split at h
          · exact Option.noConfusion h
          · split at h
            · simp only [Option.some.injEq, Prod.mk.injEq] at h
              exact ⟨_, h.1.symm⟩
            · exact ih _ _ _ _ h
            · exact Option.noConfusion h
        · exact Option.noConfusion h
    · exact Option.noConfusion h

/-- Decoding at a `[` or `{` yields an array or object. -/
theorem rawDecode_structured : ∀ (s : Str) (v : JValue) (rest : Str),
    (s.head? = some '[' ∨ s.head? = some '{') → rawDecode s = some (v, rest) →
    isStructured v = true := by
  intro s v rest hh h
  unfold rawDecode at h
  obtain ⟨f, hf⟩ : ∃ f, pjFuel s = f + 1 := ⟨2 * s.length + 7, rfl⟩
  rw [hf] at h
  rcases hh with hh | hh
  · obtain ⟨r, rfl⟩ : ∃ r, s = '[' :: r := by
      cases s with
      | nil => simp at hh
      | cons c r =>
        simp only [List.head?_cons, Option.some.injEq] at hh
        exact ⟨r, by rw [hh]⟩
    rw [pj_pval_arr_eq] at h
    split at h
    · simp only [Option.some.injEq, Prod.mk.injEq] at h
      rw [← h.1]; rfl
    · obtain ⟨l, rfl⟩ := pj_parr_arr _ _ _ _ _ h
      rfl
  · obtain ⟨r, rfl⟩ : ∃ r, s = '{' :: r := by
      cases s with
      | nil => simp at hh
      | cons c r =>
        simp only [List.head?_cons, Option.some.injEq] at hh
        exact ⟨r, by rw [hh]⟩
    rw [pj_pval_obj_eq] at h
    split at h
    · simp only [Option.some.injEq, Prod.mk.injEq] at h
      rw [← h.1]; rfl
    · obtain ⟨m, rfl⟩ := pj_pobj_obj _ _ _ _ _ h
      rfl

/-- A non-empty string headed by `[` or `{`, from a head hypothesis. -/
theorem headBracket_cases (c2 : Str) (hh : c2.head? = some '[' ∨ c2.head? = some '{') :
    ∃ c r, c2 = c :: r ∧ (c = '[' ∨ c = '{') := by
  cases c2 with
  | nil => rcases hh with hh | hh <;> exact Option.noConfusion hh
  | cons c r =>
    refine ⟨c, r, rfl, ?_⟩
    rcases hh with hh | hh
    · exact Or.inl (Option.some.inj hh)
    · exact Or.inr (Option.some.inj hh)

/-- `firstBracket` returns a suffix that starts with the bracket it reports. -/
theorem firstBracket_head : ∀ (s : Str) (b : Bool) (t : Str),
    firstBracket s = some (b, t) → t.head? = some (if b then '[' else '{') := by
  intro s
  induction s with
  | nil => intro b t h; exact Option.noConfusion h
  | cons c r ih =>
    intro b t h
    unfold firstBracket at h
    split_ifs at h with h1 h2
    · simp only [Option.some.injEq, Prod.mk.injEq] at h
      rw [← h.2, ← h.1, h1]
      rfl
    · simp only [Option.some.injEq, Prod.mk.injEq] at h
      rw [← h.2, ← h.1, h2]
      rfl
    · exact ih _ _ h

/-- The trailing-comma rewrite keeps a non-comma head character. -/
theorem commaSub_cons_head (f : Nat) (c : Char) (r : Str) (h : ¬ c = ',') :
    (commaSub (f + 1) (c :: r)).head? = some c := by
  simp [commaSub, h]

/-- The `ast.literal_eval` fallback only ever returns lists or dicts. -/
theorem jsonFallbackEval_structured (c : Str) (v : JValue)
    (h : jsonFallbackEval c = some v) : isStructured v = true := by
  unfold jsonFallbackEval at h
  split_ifs at h
  first
    | exact Option.noConfusion h
    | (split at h <;>
        first
          | exact Option.noConfusion h
          | (simp only [Option.some.injEq] at h; rw [← h]; rfl))

/-- The head of a bracket-headed candidate after take and comma-rewrite. -/
theorem candidate_head (c : Char) (r : Str) (i : Nat) (hc : c = '[' ∨ c = '{') :
    (commaSub ((c :: r).take (i + 1)).length ((c :: r).take (i + 1))).head? = some '[' ∨
    (commaSub ((c :: r).take (i + 1)).length ((c :: r).take (i + 1))).head? = some '{' := by
  rw [List.take_succ_cons, List.length_cons]
  have hne : ¬ c = ',' := by rcases hc with rfl | rfl <;> decide
  have hh := commaSub_cons_head (r.take i).length c (r.take i) hne
  rcases hc with rfl | rfl
  · exact Or.inl hh
  · exact Or.inr hh

/-- Array-root repair only returns arrays or objects. -/
theorem repairArray_structured (c2 : Str) (v : JValue)
    (hh : c2.head? = some '[' ∨ c2.head? = some '{')
    (h : repairArray c2 = some v) : isStructured v = true := by
  obtain ⟨c, r, rfl, hc⟩ := headBracket_cases c2 hh
  unfold repairArray at h
  cases hr : rfindChar ']' (c :: r) with
  | some i =>
    rw [hr] at h
    simp only [] at h
    cases hw : rawDecode (commaSub (((c :: r).take (i + 1)).length) ((c :: r).take (i + 1))) with
    | some p =>
      rw [hw] at h
      simp only [] at h
      simp only [Option.some.injEq] at h
      rw [← h]
      exact rawDecode_structured _ _ _ (candidate_head c r i hc) hw
    | none =>
      rw [hw] at h
      simp only [] at h
      cases ho : objScan (c :: r).length (c :: r) with
      | nil => rw [ho] at h; simp only [] at h; exact Option.noConfusion h
      | cons x xs =>
        rw [ho] at h
        simp only [] at h
        simp only [Option.some.injEq] at h
        rw [← h]; rfl
  | none =>
    rw [hr] at h
    simp only [] at h
    cases ho : objScan (c :: r).length (c :: r) with
    | nil => rw [ho] at h; simp only [] at h; exact Option.noConfusion h
    | cons x xs =>
      rw [ho] at h
      simp only [] at h
      simp only [Option.some.injEq] at h
      rw [← h]; rfl

/-- Object-root repair only returns arrays or objects. -/
theorem repairObj_structured (c2 : Str) (v : JValue)
    (hh : c2.head? = some '[' ∨ c2.head? = some '{')
    (h : repairObj c2 = some v) : isStructured v = true := by
  obtain ⟨c, r, rfl, hc⟩ := headBracket_cases c2 hh
  unfold repairObj at h
  cases hr : rfindChar '}' (c :: r) with
  | none => rw [hr] at h; simp only [] at h; exact Option.noConfusion h
  | some i =>
    rw [hr] at h
    simp only [] at h
    cases hw : rawDecode (commaSub (((c :: r).take (i + 1)).length) ((c :: r).take (i + 1))) with
    | some p =>
      rw [hw] at h
      simp only [] at h
      simp only [Option.some.injEq] at h
      rw [← h]
      exact rawDecode_structured _ _ _ (candidate_head c r i hc) hw
    | none => rw [hw] at h; simp only [] at h; exact Option.noConfusion h

/-- The strict-decode stage with its repairs only returns arrays or objects
when the input starts with a bracket. -/
theorem mainParse_structured (c2 : Str) (rootArr : Bool) (v : JValue)
    (hh : c2.head? = some '[' ∨ c2.head? = some '{')
    (h : mainParse c2 rootArr = some v) : isStructured v = true := by
  unfold mainParse at h
  cases hw : rawDecode c2 with
  | some p =>
    obtain ⟨w, rest⟩ := p
    rw [hw] at h
    simp only [] at h
    have hws := rawDecode_structured _ _ _ hh hw
    cases w with
    | arr l =>
      split_ifs at h
      · simp only [Option.some.injEq] at h; rw [← h]; rfl
      · simp only [Option.some.injEq] at h; rw [← h]; rfl
    | null => simp only [Option.some.injEq] at h; rw [← h]; exact hws
    | bool b => simp only [Option.some.injEq] at h; rw [← h]; exact hws
    | num n => simp only [Option.some.injEq] at h; rw [← h]; exact hws
    | str st => simp only [Option.some.injEq] at h; rw [← h]; exact hws
    | obj m => simp only [Option.some.injEq] at h; rw [← h]; exact hws
  | none =>
    rw [hw] at h
    simp only [] at h
    cases rootArr with
    | true => exact repairArray_structured _ _ hh h
    | false => exact repairObj_structured _ _ hh h

/-- The whole recovery pipeline only succeeds with a list or a mapping. -/
theorem cpjCore_structured (raw : Str) (v : JValue)
    (h : cpjCore raw = some v) : isStructured v = true := by
  unfold cpjCore at h
  cases hfb : firstBracket (cleanStage1 raw) with
  | none => rw [hfb] at h; simp only [] at h; exact jsonFallbackEval_structured _ _ h
  | some p =>
    obtain ⟨rootArr, sliced⟩ := p
    rw [hfb] at h
    simp only [] at h
    have hhead := firstBracket_head _ _ _ hfb
    have hor : sliced.head? = some '[' ∨ sliced.head? = some '{' := by
      cases rootArr with
      | true => exact Or.inl hhead
      | false => exact Or.inr hhead
    cases hm : mainParse (commaSub sliced.length sliced) rootArr with
    | some w =>
      rw [hm] at h
      simp only [] at h
      simp only [Option.some.injEq] at h
      rw [← h]
      obtain ⟨c, r, rfl, hc⟩ := headBracket_cases sliced hor
      refine mainParse_structured _ _ _ ?_ hm
      rw [List.length_cons]
      have hne : ¬ c = ',' := by rcases hc with rfl | rfl <;> decide
      have hch := commaSub_cons_head r.length c r hne
      rcases hc with rfl | rfl
      · exact Or.inl hch
      · exact Or.inr hch
    | none =>
      rw [hm] at h
      simp only [] at h
      exact jsonFallbackEval_structured _ _ h

/-- Claim C5: for every input string the recovery parser terminates (it is a
total Lean function) and returns a structured value (list or mapping); and
whenever every recovery strategy fails, the returned value is exactly the
failure marker carrying the original raw input text. -/
theorem c5_parser_total (s : Str) :
    isStructured (clean_and_parse_json s) = true ∧
    (cpjCore s = none → clean_and_parse_json s = failMarker s) := by
  constructor
  · unfold clean_and_parse_json
    cases h : cpjCore s with
    | none => rfl
    | some v => exact cpjCore_structured s v h
  · intro h
    unfold clean_and_parse_json
    rw [h]
    rfl

/-- Witness for C5 on an input every strategy rejects: the failure marker
comes back carrying the raw text. -/
theorem c5_parser_total_witness :
    cpjCore (S "no json here") = none ∧
    clean_and_parse_json (S "no json here") = failMarker (S "no json here") :=
  ⟨rfl, (c5_parser_total (S "no json here")).2 rfl⟩

/-- The written payload of a run is the persistence dispatch applied to the
plan's pre-existing list and the run's final parsed value. -/
theorem run_written (cfg : GenConfig) (pin : PrepIn) (co : Nat → Except Str Str)
    (oracle : Nat → List Str) :
    (generate_test_cases_stream cfg pin co oracle).written =
      persistOutcome cfg (planRun cfg).existingCases
        (generate_test_cases_stream cfg pin co oracle).finalParsed := rfl

/-- In append mode with a located record, the plan's pre-existing list is the
record's list. -/
theorem planRun_existing (cfg : GenConfig) (ex : List JValue)
    (hApp : cfg.append = true) (hEx : cfg.existing = some ex) :
    (planRun cfg).existingCases = ex := by
  simp [planRun, hApp, hEx]

/-- Claim C7: in append mode, every pre-existing item of the located persisted
record is contained in the final persisted list — the merge concatenates the
pre-existing list with the (possibly truncated) new list, and when nothing is
written the record keeps its old list. -/
theorem c7_append_preserves (cfg : GenConfig) (pin : PrepIn) (co : Nat → Except Str Str)
    (oracle : Nat → List Str) (ex : List JValue) (x : JValue)
    (hApp : cfg.append = true) (hOv : cfg.overwrite = false)
    (hEx : cfg.existing = some ex) (hx : x ∈ ex) :
    x ∈ storedAfterRun cfg (generate_test_cases_stream cfg pin co oracle) := by
  unfold storedAfterRun
  rw [run_written cfg pin co oracle, planRun_existing cfg ex hApp hEx]
  unfold persistOutcome
  rw [hOv, hApp, hEx]
  simp only [Bool.false_eq_true, if_false, Option.isSome_some, Bool.and_self, if_true]
  cases hv : (generate_test_cases_stream cfg pin co oracle).finalParsed with
  | arr l => exact List.mem_append_left _ hx
  | null => simp only [hApp, hEx, if_true, Option.getD_some]; exact hx
  | bool b => simp only [hApp, hEx, if_true, Option.getD_some]; exact hx
  | num n => simp only [hApp, hEx, if_true, Option.getD_some]; exact hx
  | str st => simp only [hApp, hEx, if_true, Option.getD_some]; exact hx
  | obj m => simp only [hApp, hEx, if_true, Option.getD_some]; exact hx

/-- Witness for C7: an append run over one pre-existing record; the old record
is still in the persisted list after the run. -/
theorem c7_append_preserves_witness :
    cfgApp.append = true ∧ cfgApp.overwrite = false ∧
    cfgApp.existing = some exOne ∧ JValue.str (S "old") ∈ exOne ∧
    JValue.str (S "old") ∈
      storedAfterRun cfgApp (generate_test_cases_stream cfgApp pinTriv coTriv oracleOne) :=
  ⟨rfl, rfl, rfl, List.Mem.head _,
   c7_append_preserves cfgApp pinTriv coTriv oracleOne exOne (JValue.str (S "old"))
     rfl rfl rfl (List.Mem.head _)⟩

/-- The plan's batch size is at least one. -/
theorem planRun_batchSize_pos (cfg : GenConfig) : 1 ≤ (planRun cfg).batchSize := by
  simp only [planRun]
  exact Nat.le_max_left 1 _

/-- The plan never lowers a positive target. -/
theorem planRun_expected_pos (cfg : GenConfig) (h : 1 ≤ cfg.expected) :
    1 ≤ (planRun cfg).expected := by
  simp only [planRun]
  split_ifs <;> omega

/-- After planning, an append run's target strictly exceeds the pre-existing
count. -/
theorem planRun_append_lt (cfg : GenConfig) (hApp : cfg.append = true)
    (_h : 1 ≤ cfg.expected) :
    (planRun cfg).existingCases.length < (planRun cfg).expected := by
  simp only [planRun, hApp, Bool.true_and, decide_eq_true_eq]
  split_ifs with h1 h2 h3 <;> simp_all

/-- Truncation bounds the combined count by the target whenever the target
exceeds the pre-existing count in append mode. -/
theorem truncStep_count_le (app : Bool) (exLen expected : Nat) (l : List JValue)
    (hinv : app = true → exLen < expected) :
    ((truncStep app exLen expected l).1).length + (if app then exLen else 0) ≤ expected := by
  simp only [truncStep]
  split_ifs <;> simp_all [List.length_take] <;> omega

/-- Post-processing never exceeds the planned target: the combined count of
the final parsed list plus the pre-existing records (append mode) is at most
the plan's expected count, whatever the batch phase accumulated and whatever
the supplement oracle returns. -/
theorem postProcess_count_le (cfg : GenConfig) (plan : Plan) (oracle : Nat → List Str)
    (st : OrSt) (hinv : cfg.append = true → plan.existingCases.length < plan.expected)
    (hexp : 1 ≤ plan.expected) :
    listLen (postProcess cfg plan oracle st).finalParsed +
      (if cfg.append then plan.existingCases.length else 0) ≤ plan.expected := by
  cases hp : normalize_json_structure (clean_and_parse_json st.fullContent) with
  | arr l =>
    have hne : plan.expected ≠ 0 := by omega
    simp only [postProcess, hp, ne_eq, hne, not_false_eq_true, if_true, listLen]
    exact truncStep_count_le cfg.append plan.existingCases.length plan.expected _ hinv
  | null =>
    simp only [postProcess, hp, listLen]
    by_cases hA : cfg.append = true
    · have := hinv hA; rw [if_pos hA]; omega
    · rw [if_neg hA]; omega
  | bool b =>
    simp only [postProcess, hp, listLen]
    by_cases hA : cfg.append = true
    · have := hinv hA; rw [if_pos hA]; omega
    · rw [if_neg hA]; omega
  | num n =>
    simp only [postProcess, hp, listLen]
    by_cases hA : cfg.append = true
    · have := hinv hA; rw [if_pos hA]; omega
    · rw [if_neg hA]; omega
  | str s' =>
    simp only [postProcess, hp, listLen]
    by_cases hA : cfg.append = true
    · have := hinv hA; rw [if_pos hA]; omega
    · rw [if_neg hA]; omega
  | obj m =>
    simp only [postProcess, hp, listLen]
    by_cases hA : cfg.append = true
    · have := hinv hA; rw [if_pos hA]; omega
    · rw [if_neg hA]; omega

/-- The append-mode summand of `finalCountOf` equals the plan's pre-existing
count. -/
theorem finalCount_existing (cfg : GenConfig) :
    (if cfg.append then (cfg.existing.getD []).length else 0) =
      (if cfg.append then (planRun cfg).existingCases.length else 0) := by
  by_cases hA : cfg.append = true
  · simp [planRun, hA]
  · simp [hA]

/-- Claim C1, amended: for every request with a positive target and every
behaviour of the generation oracle, the final persisted + streamed record
count (new records plus pre-existing ones in append mode) is at most the
planning-adjusted target; exactly reaching the target is not guaranteed. -/
theorem c1_count_at_most_target (cfg : GenConfig) (pin : PrepIn)
    (co : Nat → Except Str Str) (oracle : Nat → List Str) (h : 1 ≤ cfg.expected) :
    finalCountOf cfg (generate_test_cases_stream cfg pin co oracle) ≤
      (planRun cfg).expected := by
  unfold finalCountOf
  rw [finalCount_existing cfg]
  unfold generate_test_cases_stream
  exact postProcess_count_le cfg (planRun cfg) oracle _
    (fun hA => planRun_append_lt cfg hA h) (planRun_expected_pos cfg h)

/-- Witness for the amended C1 on a concrete successful run: target 1, one
clean record, final count 1 ≤ 1. -/
theorem c1_count_at_most_target_witness :
    1 ≤ cfgNine.expected ∧
    finalCountOf cfgNine (generate_test_cases_stream cfgNine pinTriv coTriv oracleNine) ≤
      (planRun cfgNine).expected :=
  ⟨by decide, c1_count_at_most_target cfgNine pinTriv coTriv oracleNine (by decide)⟩

/-- Claim C3, amended: a provider-error sentinel chunk aborts the current
batch immediately — the batch makes exactly one (further) generation call, the
sentinel text followed by a newline is emitted right after a failure status
line, and the error flag is set; no retry of this batch happens.  (Later
batches and the supplement phase still run, as `c3_counterexample` shows.) -/
theorem c3_batch_abort (oracle : Nat → List Str) (i tb cbc f attempt gib : Nat)
    (bc : Str) (st : OrSt) (e : Str)
    (he : streamSentinel (oracle st.callIdx) = some e) (hgc : gib < cbc) :
    (runAttempts oracle i tb cbc (f + 1) attempt gib bc st).1.callIdx = st.callIdx + 1 ∧
    (runAttempts oracle i tb cbc (f + 1) attempt gib bc st).1.sawProviderError = true ∧
    ∃ mid, (runAttempts oracle i tb cbc (f + 1) attempt gib bc st).1.yields =
      st.yields ++ mid ++ [statusFail, e ++ S "\n"] := by
  have he' : (consumeChunks (oracle st.callIdx)).2.2 = some e := he
  simp only [runAttempts]
  rw [if_pos hgc, he']
  simp only []
  refine ⟨by simp, by simp,
    ⟨statusBatch i tb cbc (attempt + 1) :: (consumeChunks (oracle st.callIdx)).2.1, ?_⟩⟩
  simp [List.append_assoc]

/-- Witness for the amended C3: the concrete rate-limited stream aborts its
batch after one call, with the sentinel line emitted last. -/
theorem c3_batch_abort_witness :
    streamSentinel (oracleErr 0) = some (S "Error: HTTP 429 - rate limited") ∧
    (0 : Nat) < 1 ∧
    ((runAttempts oracleErr 0 1 1 3 0 0 [] stInit).1.callIdx = stInit.callIdx + 1 ∧
     (runAttempts oracleErr 0 1 1 3 0 0 [] stInit).1.sawProviderError = true ∧
     ∃ mid, (runAttempts oracleErr 0 1 1 3 0 0 [] stInit).1.yields =
       stInit.yields ++ mid ++ [statusFail, S "Error: HTTP 429 - rate limited" ++ S "\n"]) :=
  ⟨rfl, by decide,
   c3_batch_abort oracleErr 0 1 1 2 0 0 [] stInit (S "Error: HTTP 429 - rate limited")
     rfl (by decide)⟩

/-- Claim C10, counterexample: with compression requested, a requirement whose
compressed form still exceeds 120000 characters gets NO additional compression
pass — exactly one `compress_context` call is made and the oversized result is
kept (the ~120000-character safety valve only runs when compression was not
requested, source line 553). -/
theorem c10_counterexample :
    (prepareContext true pinBig coBig).calls = 1 ∧
    120000 < (prepareContext true pinBig coBig).req.length := by
  refine ⟨rfl, ?_⟩
  have hreq : (prepareContext true pinBig coBig).req = bigOut := rfl
  have h : bigOut.length = 120001 := by
    show ('b' :: List.replicate 120000 'b').length = 120001
    rw [List.length_cons, List.length_replicate]
  rw [hreq]
  omega

/-- Claim C10, amended: only when compression was NOT requested does the
~120000-character safety valve run, and then it covers both texts: a non-empty
requirement exceeding 120000 characters receives exactly one additional
compression pass, and a non-empty retrieved context exceeding the threshold
receives exactly one further pass (its call following the requirement's, when
both fire); each result is used only when non-empty and not `Error`-prefixed,
and the original text is kept otherwise, including when the pass raises. -/
theorem c10_safety_valve (req fc r10 rag5 : Str) (co : Nat → Except Str Str) :
    (prepareContext false ⟨req, fc, r10, rag5⟩ co).calls =
      ((if ¬ req.isEmpty && 120000 < req.length then 1 else 0) +
       (if ¬ rag5.isEmpty && 120000 < rag5.length then 1 else 0)) ∧
    (prepareContext false ⟨req, fc, r10, rag5⟩ co).req =
      (if ¬ req.isEmpty && 120000 < req.length then
         (match co 0 with
          | Except.ok cr => if ¬ cr.isEmpty && ¬ startsWithS (S "Error") cr then cr else req
          | Except.error _ => req)
       else req) ∧
    (prepareContext false ⟨req, fc, r10, rag5⟩ co).kb =
      (if ¬ rag5.isEmpty && 120000 < rag5.length then
         (match co (if ¬ req.isEmpty && 120000 < req.length then 1 else 0) with
          | Except.ok ck => if ¬ ck.isEmpty && ¬ startsWithS (S "Error") ck then ck else rag5
          | Except.error _ => rag5)
       else rag5) := by
  by_cases h1 : (¬ req.isEmpty && 120000 < req.length) = true <;>
  by_cases h2 : (¬ rag5.isEmpty && 120000 < rag5.length) = true <;>
    simp only [prepareContext, Bool.false_eq_true, if_false, h1, h2, if_true]
  · cases hco : co 0 with
    | ok cr =>
      simp only [hco]
      split_ifs with hacc <;>
        simp only [] <;>
        (cases hco2 : co 1 with
         | ok ck => simp only [hco2]; split_ifs <;> simp
         | error m2 => simp [hco2])
    | error m =>
      simp only [hco]
      cases hco2 : co 1 with
      | ok ck => simp only [hco2]; split_ifs <;> simp
      | error m2 => simp [hco2]
  · cases hco : co 0 with
    | ok cr => simp only [hco]; split_ifs <;> simp
    | error m => simp [hco]
  · cases hco : co 0 with
    | ok ck => simp only [hco]; split_ifs <;> simp
    | error m => simp [hco]
  · exact ⟨trivial, trivial, trivial⟩
